import Mathlib

/-!
Verification of the thinc model-composition engine, the vendored zarch
complex-GEMV kernel (`zgemv_n_4.c`), and the `Example.init` helper of
`api.pxd`, against the repository's specification.

The model-composition engine (`Model`, `chain`, `concatenate`, `residual`,
`set_dim`, `finish_update`, `to_bytes`/`from_bytes`, `predict`) is not
present as implementation code in the repository (only a usage notebook
under `examples/`), so those definitions are modelled from the spec, as
marked in their doc comments.
-/

namespace Thinc

/-- Tensors are modelled as 2-D integer arrays: a batch of rows, each row a
list of feature values. -/
abbrev Tensor := List (List Int)

/-- Elementwise addition of two tensors (shapes assumed equal). -/
def addT (s t : Tensor) : Tensor := List.zipWith (List.zipWith (· + ·)) s t

/-- Elementwise subtraction of two tensors (shapes assumed equal). -/
def subT (s t : Tensor) : Tensor := List.zipWith (List.zipWith (· - ·)) s t

/-- Concatenation of two tensors along the feature (column) axis. -/
def concatT (s t : Tensor) : Tensor := List.zipWith (· ++ ·) s t

/-- A zero tensor of the same shape as the given tensor. -/
def zeroLike (t : Tensor) : Tensor := t.map (fun r => r.map (fun _ => 0))

/-- Row-lengths of a tensor, its shape along the feature axis. -/
def tshape (t : Tensor) : List Nat := t.map List.length

/-- Modelled from the spec: the error taxonomy of section 7
(DimensionNotFound, DimensionConflict, ParamNotFound, GradNotFound,
ShapeMismatch). -/
inductive ThincError where
  | dimensionNotFound
  | dimensionConflict
  | paramNotFound
  | gradNotFound
  | shapeMismatch
deriving DecidableEq, Repr

/-- Association-list lookup by string key (first match wins). -/
def alookup (k : String) : List (String × α) → Option α
  | [] => none
  | (k', v) :: rest => if k' = k then some v else alookup k rest

/-- Association-list update: replaces the first binding of the key, or
appends a new binding if the key is absent. -/
def aset (k : String) (v : α) : List (String × α) → List (String × α)
  | [] => [(k, v)]
  | (k', w) :: rest => if k' = k then (k, v) :: rest else (k', w) :: aset k v rest

/-- Modelled from the spec: the `Model` data model of section 3 — a named
node holding dimensions (string key to concrete value; an absent key is an
unset dimension), free-form attributes, parameters, gradients, an ordered
list of child layers, and a forward behavior slot.  The forward function is
a pure function of the node's current parameters and an input, producing an
output together with a backward closure (spec section 3, "Behavior slots"
and "Backward closure").  The init function is omitted: no claim exercises
initialization. -/
inductive Model where
  | mk (name : String)
       (dims : List (String × Nat))
       (attrs : List (String × String))
       (params : List (String × Tensor))
       (grads : List (String × Tensor))
       (layers : List Model)
       (forward : List (String × Tensor) → Tensor → Tensor × (Tensor → Tensor))
deriving Inhabited

def Model.name : Model → String
  | .mk n _ _ _ _ _ _ => n

def Model.dims : Model → List (String × Nat)
  | .mk _ d _ _ _ _ _ => d

def Model.attrs : Model → List (String × String)
  | .mk _ _ a _ _ _ _ => a

def Model.params : Model → List (String × Tensor)
  | .mk _ _ _ p _ _ _ => p

def Model.grads : Model → List (String × Tensor)
  | .mk _ _ _ _ g _ _ => g

def Model.layers : Model → List Model
  | .mk _ _ _ _ _ ls _ => ls

def Model.forward : Model → (List (String × Tensor) → Tensor → Tensor × (Tensor → Tensor))
  | .mk _ _ _ _ _ _ f => f

/-- Modelled from the spec: `get_dim(name)` fails with `DimensionNotFound`
if `name` is unset or unknown (spec section 4.1). -/
def Model.get_dim (m : Model) (k : String) : Except ThincError Nat :=
  match alookup k m.dims with
  | some v => .ok v
  | none => .error .dimensionNotFound

/-- Modelled from the spec: `set_dim(name, value)` fails with
`DimensionConflict` if `name` is already set to a different concrete value;
succeeds (no-op or overwrite) if unset or equal (spec section 4.1).  On
failure no model is produced, so the stored dimensions are untouched. -/
def Model.set_dim (m : Model) (k : String) (v : Nat) : Except ThincError Model :=
  match m with
  | .mk n d a p g ls f =>
    match alookup k d with
    | none => .ok (.mk n (aset k v d) a p g ls f)
    | some w => if w = v then .ok m else .error .dimensionConflict

/-- Modelled from the spec: `set_param(name, tensor)` replaces the stored
tensor, with no implicit shape check (spec section 4.1). -/
def Model.set_param (m : Model) (k : String) (t : Tensor) : Model :=
  match m with
  | .mk n d a p g ls f => .mk n d a (aset k t p) g ls f

/-- Modelled from the spec: `get_param(name)` fails with `ParamNotFound` if
read before set (spec section 4.1). -/
def Model.get_param (m : Model) (k : String) : Except ThincError Tensor :=
  match alookup k m.params with
  | some t => .ok t
  | none => .error .paramNotFound

/-- Modelled from the spec: `get_grad(name)` fails with `GradNotFound` if
no gradient slot has been allocated for that parameter yet
(spec section 4.1). -/
def Model.get_grad (m : Model) (k : String) : Except ThincError Tensor :=
  match alookup k m.grads with
  | some t => .ok t
  | none => .error .gradNotFound

/-- Modelled from the spec: `inc_grad(name, delta)` adds `delta`
elementwise into the stored gradient, allocating a zero-initialized
gradient (of the parameter's shape, which `delta` is assumed to share) on
first use (spec section 4.1). -/
def Model.inc_grad (m : Model) (k : String) (delta : Tensor) : Model :=
  match m with
  | .mk n d a p g ls f =>
    match alookup k g with
    | some old => .mk n d a p (aset k (addT old delta) g) ls f
    | none => .mk n d a p (aset k (addT (zeroLike delta) delta) g) ls f

/-- Modelled from the spec: `begin_update(X)` invokes the forward function
on the node's current parameters and returns both the output and the
backward closure (spec section 4.1). -/
def Model.begin_update (m : Model) (X : Tensor) : Tensor × (Tensor → Tensor) :=
  m.forward m.params X

/-- Modelled from the spec: `predict(X)` invokes the forward function and
discards the backward closure (spec section 4.1). -/
def Model.predict (m : Model) (X : Tensor) : Tensor :=
  (m.begin_update X).1

/-- Modelled from the spec: `chain(A, B)` — forward calls A's forward on
the input, then B's forward on A's output; the composite backward closure
first invokes B's closure, then A's closure on the result (closures
compose in strict reverse order of the forward calls; spec section 4.3).
The combinator introduces no parameters of its own and owns the two
children as layers. -/
def chain (A B : Model) : Model :=
  .mk "chain" [] [] [] [] [A, B]
    (fun _ X =>
      let ra := A.begin_update X
      let rb := B.begin_update ra.1
      (rb.1, fun dY => ra.2 (rb.2 dY)))

/-- Modelled from the spec: `concatenate(A, B)` — forward runs each child
independently on the same input and concatenates their outputs along the
feature axis in argument order; backward slices the incoming gradient back
into per-child segments (by the sizes used for concatenation) and sums the
per-child input gradients (spec section 4.3). -/
def concatenate (A B : Model) : Model :=
  .mk "concatenate" [] [] [] [] [A, B]
    (fun _ X =>
      let ra := A.begin_update X
      let rb := B.begin_update X
      (concatT ra.1 rb.1, fun dY =>
        let dA := ra.2 (List.zipWith (fun (yr dr : List Int) => dr.take yr.length) ra.1 dY)
        let dB := rb.2 (List.zipWith (fun (yr dr : List Int) => dr.drop yr.length) ra.1 dY)
        addT dA dB))

/-- Modelled from the spec: `residual(layer)` — forward computes
`layer(X)` and returns `X + layer(X)` elementwise; backward passes the
incoming gradient `dY` to the layer's closure and returns
`dX_inner + dY` (spec section 4.3). -/
def residual (L : Model) : Model :=
  .mk "residual" [] [] [] [] [L]
    (fun _ X =>
      let r := L.begin_update X
      (addT X r.1, fun dY => addT (r.2 dY) dY))

/-- Modelled from the spec: `add(A, B)` — forward computes `A(X) + B(X)`
elementwise; backward feeds the incoming gradient unchanged to both
closures and sums the resulting input gradients (spec section 4.3). -/
def add (A B : Model) : Model :=
  .mk "add" [] [] [] [] [A, B]
    (fun _ X =>
      let ra := A.begin_update X
      let rb := B.begin_update X
      (addT ra.1 rb.1, fun dY => addT (ra.2 dY) (rb.2 dY)))

mutual

/-- Modelled from the spec: `finish_update(optimizer)` — for every
parameter of this node and, recursively, every child node, applies
`optimizer(param, grad) -> updated_param`, then clears (zeroes) the
corresponding gradient so subsequent accumulation starts fresh
(spec section 4.1; the spec's testable property requires that `get_grad`
afterwards returns an all-zero tensor rather than `GradNotFound`, so
clearing keeps the slot and zeroes it).  A parameter with no allocated
gradient slot is updated against a zero gradient of its own shape. -/
def Model.finish_update (opt : Tensor → Tensor → Tensor) : Model → Model
  | .mk n d a p g ls f =>
    .mk n d a
      (p.map (fun kv => (kv.1, opt kv.2 ((alookup kv.1 g).getD (zeroLike kv.2)))))
      (g.map (fun kv => (kv.1, zeroLike kv.2)))
      (finishUpdateList opt ls) f

/-- Recursive propagation of `finish_update` to the child layers. -/
def finishUpdateList (opt : Tensor → Tensor → Tensor) : List Model → List Model
  | [] => []
  | m :: ms => m.finish_update opt :: finishUpdateList opt ms

end

/-- Modelled from the spec: the serialized form of a model tree — per node
the name, the resolved dimensions, the attributes and the parameter
tensors, plus the serialized children, in tree order; gradients and the
forward closure are not part of the serialized form (spec sections 4.1
and 6). -/
inductive SerialNode where
  | mk (name : String)
       (dims : List (String × Nat))
       (attrs : List (String × String))
       (params : List (String × Tensor))
       (children : List SerialNode)

mutual

/-- Modelled from the spec: `to_bytes()` serializes the structural tree —
names, dimensions, attributes, and parameter tensors (not gradients, not
closures) — in tree order (spec section 4.1). -/
def Model.to_bytes : Model → SerialNode
  | .mk n d a p _ ls _ => .mk n d a p (toBytesList ls)

/-- Serialization of a list of child layers, in order. -/
def toBytesList : List Model → List SerialNode
  | [] => []
  | m :: ms => m.to_bytes :: toBytesList ms

end

mutual

/-- Modelled from the spec: `from_bytes(bytes)` applied to a pre-built
model of matching structure restores the serialized fields — name,
dimensions, attributes, parameter tensors — onto that model and,
recursively, onto its children; the forward closure and the gradients are
taken from the pre-built model, since they are not serialized
(spec sections 4.1 and 6). -/
def Model.from_bytes : Model → SerialNode → Model
  | .mk _ _ _ _ g ls f, .mk n d a p cs => .mk n d a p g (fromBytesList ls cs) f

/-- Deserialization of the child layers, pairing pre-built children with
serialized children in order. -/
def fromBytesList : List Model → List SerialNode → List Model
  | [], _ => []
  | _ :: _, [] => []
  | m :: ms, c :: cs => m.from_bytes c :: fromBytesList ms cs

end

/-- Replaces a model's gradients and forward closure, leaving the
serialized fields (name, dimensions, attributes, parameters, layers)
untouched; used to state that serialization ignores gradients and
closures. -/
def Model.withGradsForward (m : Model) (g : List (String × Tensor))
    (f : List (String × Tensor) → Tensor → Tensor × (Tensor → Tensor)) : Model :=
  match m with
  | .mk n d a p _ ls _ => .mk n d a p g ls f

/-- Modelled from the spec: the mutating and read-only operations on a
model node (spec sections 4.1 and 5): `set_dim`, `set_param`, `inc_grad`,
`finish_update` (with its optimizer), and `predict`.  `predict` is the
only operation producing an output tensor. -/
inductive Op where
  | setDim (k : String) (v : Nat)
  | setParam (k : String) (t : Tensor)
  | incGrad (k : String) (t : Tensor)
  | finishUpdate (opt : Tensor → Tensor → Tensor)
  | predictOp (X : Tensor)

/-- Modelled from the spec: running one operation against a model node
returns the updated model (unchanged for the read-only `predict`) and, for
`predict`, the output tensor (spec sections 4.1 and 5). -/
def runOp (m : Model) : Op → Except ThincError (Model × Option Tensor)
  | .setDim k v => (m.set_dim k v).map (fun m' => (m', none))
  | .setParam k t => .ok (m.set_param k t, none)
  | .incGrad k t => .ok (m.inc_grad k t, none)
  | .finishUpdate opt => .ok (m.finish_update opt, none)
  | .predictOp X => .ok (m, some (m.predict X))

/-- Running a sequence of operations, threading the model through and
discarding the outputs; the first failure aborts the sequence. -/
def runOps (m : Model) : List Op → Except ThincError Model
  | [] => .ok m
  | op :: ops =>
    match runOp m op with
    | .error e => .error e
    | .ok r => runOps r.1 ops

/-- A sample shape-preserving primitive layer: adds a constant to every
entry; its backward closure passes the output gradient through
unchanged. -/
def constLayer (c : Int) : Model :=
  .mk "const" [("nO", 1), ("nI", 1)] [] [] [] []
    (fun _ X => (X.map (fun r => r.map (fun v => v + c)), fun dY => dY))

theorem zipAdd_zero (r : List Int) :
    List.zipWith (· + ·) (r.map (fun _ => (0 : Int))) r = r := by
  induction r with
  | nil => rfl
  | cons a as ih =>
    calc List.zipWith (· + ·) ((a :: as).map (fun _ => (0 : Int))) (a :: as)
        = (0 + a) :: List.zipWith (· + ·) (as.map (fun _ => (0 : Int))) as := rfl
      _ = a :: as := by rw [zero_add, ih]

theorem addT_zeroLike (t : Tensor) : addT (zeroLike t) t = t := by
  induction t with
  | nil => rfl
  | cons r rs ih =>
    calc addT (zeroLike (r :: rs)) (r :: rs)
        = List.zipWith (· + ·) (r.map (fun _ => (0 : Int))) r :: addT (zeroLike rs) rs := rfl
      _ = r :: rs := by rw [zipAdd_zero, ih]

theorem alookup_map (k : String) (l : List (String × α)) (f : String → α → β) :
    alookup k (l.map (fun kv => (kv.1, f kv.1 kv.2))) = (alookup k l).map (f k) := by
  induction l with
  | nil => rfl
  | cons kv rest ih =>
    by_cases h : kv.1 = k <;> simp [alookup, h, ih]

theorem alookup_aset_self (k : String) (v : α) (l : List (String × α)) :
    alookup k (aset k v l) = some v := by
  induction l with
  | nil => simp [aset, alookup]
  | cons kv rest ih =>
    by_cases h : kv.1 = k <;> simp [aset, alookup, h, ih]

theorem alookup_aset_of_ne (d k : String) (h : d ≠ k) (v : α) (l : List (String × α)) :
    alookup d (aset k v l) = alookup d l := by
  induction l with
  | nil =>
    simp only [aset, alookup]
    rw [if_neg (fun hk : k = d => h hk.symm)]
  | cons kv rest ih =>
    by_cases hk : kv.1 = k
    · simp only [aset, if_pos hk, alookup]
      rw [if_neg (fun hkd : k = d => h hkd.symm),
        if_neg (fun hd : kv.1 = d => h (hk.symm.trans hd).symm)]
    · simp only [aset, if_neg hk, alookup, ih]

theorem finishUpdateList_eq_map (opt : Tensor → Tensor → Tensor) (ls : List Model) :
    finishUpdateList opt ls = ls.map (Model.finish_update opt) := by
  induction ls with
  | nil => rfl
  | cons m ms ih => simp [finishUpdateList, ih]

mutual

theorem Model.from_to (m : Model) : m.from_bytes m.to_bytes = m := by
  cases m with
  | mk n d a p g ls f =>
    simp [Model.to_bytes, Model.from_bytes, fromTo_list ls]

theorem fromTo_list (ms : List Model) : fromBytesList ms (toBytesList ms) = ms := by
  cases ms with
  | nil => rfl
  | cons m ms => simp [toBytesList, fromBytesList, Model.from_to m, fromTo_list ms]

end

theorem concatT_spec (ya yb : Tensor) (nA nB : Nat)
    (hlen : ya.length = yb.length)
    (hA : ∀ r ∈ ya, r.length = nA) (hB : ∀ r ∈ yb, r.length = nB) :
    (concatT ya yb).map (fun r => r.take nA) = ya ∧
    (concatT ya yb).map (fun r => r.drop nA) = yb ∧
    ∀ r ∈ concatT ya yb, r.length = nA + nB := by
  induction ya generalizing yb with
  | nil =>
    cases yb with
    | nil => exact ⟨rfl, rfl, by intro r hr; cases hr⟩
    | cons b bs => cases hlen
  | cons a as ih =>
    cases yb with
    | nil => cases hlen
    | cons b bs =>
      have ha : a.length = nA := hA a (List.mem_cons_self a as)
      have hb : b.length = nB := hB b (List.mem_cons_self b bs)
      have hlen' : as.length = bs.length := by simpa using hlen
      obtain ⟨h1, h2, h3⟩ := ih bs hlen'
        (fun r hr => hA r (List.mem_cons_of_mem a hr))
        (fun r hr => hB r (List.mem_cons_of_mem b hr))
      have ht : (a ++ b).take nA = a := by rw [← ha]; exact List.take_left a b
      have hd : (a ++ b).drop nA = b := by rw [← ha]; exact List.drop_left a b
      refine ⟨?_, ?_, ?_⟩
      · show ((a ++ b).take nA) :: (concatT as bs).map (fun r => r.take nA) = a :: as
        rw [ht, h1]
      · show ((a ++ b).drop nA) :: (concatT as bs).map (fun r => r.drop nA) = b :: bs
        rw [hd, h2]
      · intro r hr
        rcases List.mem_cons.mp hr with hr | hr
        · rw [hr, List.length_append, ha, hb]
        · exact h3 r hr

theorem set_dim_of_unset (n : String) (dm : List (String × Nat))
    (a : List (String × String)) (p g : List (String × Tensor)) (ls : List Model)
    (f : List (String × Tensor) → Tensor → Tensor × (Tensor → Tensor))
    (k : String) (v : Nat) (halo : alookup k dm = none) :
    (Model.mk n dm a p g ls f).set_dim k v =
      .ok (.mk n (aset k v dm) a p g ls f) := by
  simp [Model.set_dim, halo]

theorem set_dim_of_set (n : String) (dm : List (String × Nat))
    (a : List (String × String)) (p g : List (String × Tensor)) (ls : List Model)
    (f : List (String × Tensor) → Tensor → Tensor × (Tensor → Tensor))
    (k : String) (v u : Nat) (halo : alookup k dm = some u) :
    (Model.mk n dm a p g ls f).set_dim k v =
      if u = v then .ok (.mk n dm a p g ls f)
      else .error .dimensionConflict := by
  simp [Model.set_dim, halo]

theorem set_dim_dims_preserved (m m' : Model) (k : String) (v : Nat)
    (h : m.set_dim k v = .ok m') (d : String) (w : Nat)
    (hd : alookup d m.dims = some w) : alookup d m'.dims = some w := by
  cases m with
  | mk n dm a p g ls f =>
    simp only [Model.dims] at hd
    cases halo : alookup k dm with
    | none =>
      rw [set_dim_of_unset n dm a p g ls f k v halo] at h
      cases h
      simp only [Model.dims]
      by_cases hdk : d = k
      · rw [hdk, halo] at hd; cases hd
      · rw [alookup_aset_of_ne d k hdk v dm]; exact hd
    | some u =>
      rw [set_dim_of_set n dm a p g ls f k v u halo] at h
      by_cases huv : u = v
      · rw [if_pos huv] at h; cases h; exact hd
      · rw [if_neg huv] at h; cases h

theorem runOp_dims_preserved (m m' : Model) (op : Op) (out : Option Tensor)
    (h : runOp m op = .ok (m', out)) (d : String) (w : Nat)
    (hd : alookup d m.dims = some w) : alookup d m'.dims = some w := by
  cases op with
  | setDim k v =>
    simp only [runOp] at h
    cases hsd : m.set_dim k v with
    | error e => rw [hsd] at h; cases h
    | ok mm =>
      rw [hsd] at h
      simp only [Except.map, Except.ok.injEq, Prod.mk.injEq] at h
      obtain ⟨h1, h2⟩ := h
      subst h1
      exact set_dim_dims_preserved m _ k v hsd d w hd
  | setParam k t =>
    simp only [runOp, Except.ok.injEq, Prod.mk.injEq] at h
    obtain ⟨h1, h2⟩ := h
    subst h1
    cases m with
    | mk n dm a p g ls f => exact hd
  | incGrad k t =>
    simp only [runOp, Except.ok.injEq, Prod.mk.injEq] at h
    obtain ⟨h1, h2⟩ := h
    subst h1
    cases m with
    | mk n dm a p g ls f =>
      simp only [Model.inc_grad]
      cases alookup k g <;> exact hd
  | finishUpdate opt =>
    simp only [runOp, Except.ok.injEq, Prod.mk.injEq] at h
    obtain ⟨h1, h2⟩ := h
    subst h1
    cases m with
    | mk n dm a p g ls f => exact hd
  | predictOp X =>
    simp only [runOp, Except.ok.injEq, Prod.mk.injEq] at h
    obtain ⟨h1, h2⟩ := h
    subst h1
    exact hd

theorem runOps_dims_preserved (ops : List Op) : ∀ m m' : Model,
    runOps m ops = .ok m' → ∀ d w, alookup d m.dims = some w →
    alookup d m'.dims = some w := by
  induction ops with
  | nil =>
    intro m m' h d w hd
    cases h
    exact hd
  | cons op ops ih =>
    intro m m' h d w hd
    cases hr : runOp m op with
    | error e => simp only [runOps, hr] at h; cases h
    | ok r =>
      simp only [runOps, hr] at h
      exact ih r.1 m' h d w (runOp_dims_preserved m r.1 op r.2 (by rw [hr]) d w hd)

/-- A plain-SGD optimizer with learning rate 1: returns `param - grad`. -/
def sgd1 : Tensor → Tensor → Tensor := fun p g => subT p g

/-- C1: for every pair of compatible models A and B (A's resolved output
size equals B's resolved input size) and every input X, the composite
built by `chain(A, B)` satisfies
`chain(A,B).predict(X) == B.predict(A.predict(X))` exactly: the forward
pass applies A to the input and then B to A's output. -/
theorem chain_predict_compose (A B : Model) (k : Nat)
    (hA : A.get_dim "nO" = .ok k) (hB : B.get_dim "nI" = .ok k) (X : Tensor) :
    (chain A B).predict X = B.predict (A.predict X) := rfl

theorem chain_predict_compose_witness :
    (constLayer 1).get_dim "nO" = .ok 1 ∧ (constLayer 2).get_dim "nI" = .ok 1 ∧
    (chain (constLayer 1) (constLayer 2)).predict [[0]] =
      (constLayer 2).predict ((constLayer 1).predict [[0]]) :=
  ⟨rfl, rfl,
    chain_predict_compose (constLayer 1) (constLayer 2) 1 rfl rfl [[0]]⟩

/-- C2: for every initialized model M and input X, deserializing the
serialized form reproduces prediction behavior exactly:
`from_bytes(to_bytes(M)).predict(X) == M.predict(X)` with bit-identical
parameters; the serialized form encodes names, dimensions, attributes,
and parameter tensors but not gradients or closures (the last conjunct:
replacing the gradients and the forward closure leaves the serialized
form unchanged). -/
theorem serialization_roundtrip_predict (m : Model) (X : Tensor) :
    m.from_bytes m.to_bytes = m ∧
    (m.from_bytes m.to_bytes).predict X = m.predict X ∧
    (m.from_bytes m.to_bytes).params = m.params ∧
    ∀ g f, (m.withGradsForward g f).to_bytes = m.to_bytes := by
  refine ⟨Model.from_to m, by rw [Model.from_to], by rw [Model.from_to], ?_⟩
  intro g f
  cases m with
  | mk n d a p g' ls f' => rfl

theorem serialization_roundtrip_predict_witness :
    ((constLayer 3).from_bytes (constLayer 3).to_bytes).predict [[4]] =
      (constLayer 3).predict [[4]] :=
  (serialization_roundtrip_predict (constLayer 3) [[4]]).2.1

/-- C3: for every pair of initialized models A and B and every input X,
`concatenate(A, B).predict(X)` has output feature-count equal to A's
output feature-count plus B's, its first nA feature columns equal
`A.predict(X)`, and the remaining columns equal `B.predict(X)`; each
child runs independently on the same input and the outputs are
concatenated in argument order. -/
theorem concatenate_predict_spec (A B : Model) (X : Tensor) (nA nB : Nat)
    (hlen : (A.predict X).length = (B.predict X).length)
    (hA : ∀ r ∈ A.predict X, r.length = nA)
    (hB : ∀ r ∈ B.predict X, r.length = nB) :
    ((concatenate A B).predict X).map (fun r => r.take nA) = A.predict X ∧
    ((concatenate A B).predict X).map (fun r => r.drop nA) = B.predict X ∧
    ∀ r ∈ (concatenate A B).predict X, r.length = nA + nB := by
  have h : (concatenate A B).predict X = concatT (A.predict X) (B.predict X) := rfl
  rw [h]
  exact concatT_spec (A.predict X) (B.predict X) nA nB hlen hA hB

theorem concatenate_predict_spec_witness :
    ((concatenate (constLayer 1) (constLayer 2)).predict [[5]]).map
        (fun r => r.take 1) = (constLayer 1).predict [[5]] ∧
    ((concatenate (constLayer 1) (constLayer 2)).predict [[5]]).map
        (fun r => r.drop 1) = (constLayer 2).predict [[5]] ∧
    ∀ r ∈ (concatenate (constLayer 1) (constLayer 2)).predict [[5]],
      r.length = 1 + 1 :=
  concatenate_predict_spec (constLayer 1) (constLayer 2) [[5]] 1 1
    (by decide) (by decide) (by decide)

/-- C4: for a model node with a parameter named p whose stored value is P
and no gradient slot for p yet, `inc_grad(p, g)` followed by
`finish_update` with the plain-SGD optimizer (`param - grad`, lr 1)
leaves the stored parameter equal to `P - g`, and a subsequent
`get_grad(p)` returns an all-zero tensor rather than failing with
`GradNotFound`; `finish_update` recursively applies itself to every
child layer. -/
theorem finish_update_sgd_spec (m : Model) (p : String) (P g : Tensor)
    (hP : alookup p m.params = some P) (hg : alookup p m.grads = none) :
    alookup p ((m.inc_grad p g).finish_update sgd1).params = some (subT P g) ∧
    ((m.inc_grad p g).finish_update sgd1).get_grad p = .ok (zeroLike g) ∧
    ((m.inc_grad p g).finish_update sgd1).layers =
      (m.inc_grad p g).layers.map (Model.finish_update sgd1) := by
  cases m with
  | mk n d a pp gg ls f =>
    simp only [Model.params] at hP
    simp only [Model.grads] at hg
    have hinc : (Model.mk n d a pp gg ls f).inc_grad p g =
        .mk n d a pp (aset p (addT (zeroLike g) g) gg) ls f := by
      simp [Model.inc_grad, hg]
    rw [hinc]
    refine ⟨?_, ?_, ?_⟩
    · show alookup p (pp.map (fun kv => (kv.1,
        sgd1 kv.2 ((alookup kv.1 (aset p (addT (zeroLike g) g) gg)).getD
          (zeroLike kv.2))))) = some (subT P g)
      have := alookup_map p pp (fun k v =>
        sgd1 v ((alookup k (aset p (addT (zeroLike g) g) gg)).getD (zeroLike v)))
      rw [this, hP, alookup_aset_self]
      simp [sgd1, addT_zeroLike]
    · show Model.get_grad _ p = _
      unfold Model.get_grad
      show (match alookup p ((aset p (addT (zeroLike g) g) gg).map
          (fun kv => (kv.1, zeroLike kv.2))) with
        | some t => Except.ok t
        | none => Except.error ThincError.gradNotFound) = _
      have := alookup_map p (aset p (addT (zeroLike g) g) gg)
        (fun _ v => zeroLike v)
      rw [this, alookup_aset_self]
      simp [addT_zeroLike]
    · show finishUpdateList sgd1 ls = ls.map (Model.finish_update sgd1)
      exact finishUpdateList_eq_map sgd1 ls

theorem finish_update_sgd_spec_witness :
    alookup "W"
        ((((Model.mk "node" [] [] [("W", [[5]])] [] []
          (fun _ X => (X, fun dY => dY))).inc_grad "W"
            [[2]]).finish_update sgd1)).params = some (subT [[5]] [[2]]) :=
  (finish_update_sgd_spec
    (Model.mk "node" [] [] [("W", [[5]])] [] [] (fun _ X => (X, fun dY => dY)))
    "W" [[5]] [[2]] (by decide) (by decide)).1

/-- C5: `set_dim(d, v)` fails with `DimensionConflict` exactly when d is
already set to a different concrete value (and then no updated model is
produced, so the stored value is unchanged); it succeeds when d is unset
or already equals v, leaving d set to v; and a dimension once set to a
concrete value never changes to a different concrete value through any
successful sequence of operations. -/
theorem set_dim_conflict_spec (m : Model) (k : String) (v : Nat) :
    (m.set_dim k v = .error .dimensionConflict ↔
      ∃ w, alookup k m.dims = some w ∧ w ≠ v) ∧
    ((alookup k m.dims = none ∨ alookup k m.dims = some v) →
      ∃ m', m.set_dim k v = .ok m' ∧ alookup k m'.dims = some v) ∧
    (∀ ops m', runOps m ops = .ok m' →
      ∀ d w, alookup d m.dims = some w → alookup d m'.dims = some w) := by
  refine ⟨?_, ?_, fun ops m' h d w hd => runOps_dims_preserved ops m m' h d w hd⟩
  · cases m with
    | mk n dm a p g ls f =>
      simp only [Model.dims]
      cases halo : alookup k dm with
      | none => rw [set_dim_of_unset n dm a p g ls f k v halo]; simp
      | some u =>
        rw [set_dim_of_set n dm a p g ls f k v u halo]
        by_cases huv : u = v
        · rw [if_pos huv]; simp [huv]
        · rw [if_neg huv]; simp [huv]
  · intro hok
    cases m with
    | mk n dm a p g ls f =>
      simp only [Model.dims] at hok
      rcases hok with hnone | hsome
      · rw [set_dim_of_unset n dm a p g ls f k v hnone]
        exact ⟨_, rfl, by simp [Model.dims, alookup_aset_self]⟩
      · rw [set_dim_of_set n dm a p g ls f k v v hsome, if_pos rfl]
        exact ⟨_, rfl, by simp [Model.dims, hsome]⟩

theorem set_dim_conflict_spec_witness :
    ((Model.mk "node" [("nO", 10)] [] [] [] []
        (fun _ X => (X, fun dY => dY))).set_dim "nO" 20 =
      .error .dimensionConflict) ∧
    (∃ m', (Model.mk "node" [("nO", 10)] [] [] [] []
        (fun _ X => (X, fun dY => dY))).set_dim "nO" 10 = .ok m' ∧
      alookup "nO" m'.dims = some 10) :=
  ⟨(set_dim_conflict_spec
      (Model.mk "node" [("nO", 10)] [] [] [] [] (fun _ X => (X, fun dY => dY)))
      "nO" 20).1.mpr ⟨10, by decide, by decide⟩,
    (set_dim_conflict_spec
      (Model.mk "node" [("nO", 10)] [] [] [] [] (fun _ X => (X, fun dY => dY)))
      "nO" 10).2.1 (Or.inr (by decide))⟩

/-- C6: for every layer L whose output shape equals its input shape and
every input X, `residual(L).predict(X) == X + L.predict(X)` elementwise;
and the residual backward closure, given an output gradient dY, returns
`dX_inner + dY` where dX_inner is the result of L's closure applied to
dY. -/
theorem residual_predict_spec (L : Model) (X dY : Tensor)
    (hshape : tshape (L.predict X) = tshape X) :
    (residual L).predict X = addT X (L.predict X) ∧
    ((residual L).begin_update X).2 dY = addT ((L.begin_update X).2 dY) dY :=
  ⟨rfl, rfl⟩

theorem residual_predict_spec_witness :
    tshape ((constLayer 1).predict [[7]]) = tshape [[7]] ∧
    (residual (constLayer 1)).predict [[7]] =
      addT [[7]] ((constLayer 1).predict [[7]]) :=
  ⟨by decide, (residual_predict_spec (constLayer 1) [[7]] [[1]] (by decide)).1⟩

/-- C7: for every model node and every input X, `predict(X)` leaves the
node's dimensions and parameters (and, through the unchanged layers
list, those of every descendant) identical to before the call, allocates
no gradient-accumulation side effects, and returns the forward output. -/
theorem predict_readonly_spec (m : Model) (X : Tensor) :
    runOp m (.predictOp X) = .ok (m, some (m.predict X)) ∧
    ∀ m' out, runOp m (.predictOp X) = .ok (m', out) →
      m'.dims = m.dims ∧ m'.params = m.params ∧ m'.grads = m.grads ∧
      m'.layers = m.layers := by
  refine ⟨rfl, ?_⟩
  intro m' out h
  cases h
  exact ⟨rfl, rfl, rfl, rfl⟩

theorem predict_readonly_spec_witness :
    runOp (constLayer 2) (.predictOp [[9]]) =
      .ok (constLayer 2, some ((constLayer 2).predict [[9]])) :=
  (predict_readonly_spec (constLayer 2) [[9]]).1

end Thinc

namespace Zgemv

/-!
Shallow embedding of `kernel/zarch/zgemv_n_4.c`.  `FLOAT` (double) values
are modelled as exact rationals; a C pointer into an array is modelled as
a function from element offsets to values (`Arr`), and a pointer at
offset `o` into array `a` is the shifted function `fun j => a (o + j)`.
The `__vector double` operations of the vectorized kernels act
lane-wise, so each vector statement is modelled by its two scalar lane
computations.  The configuration flag `b` is true for the
`(!CONJ && !XCONJ) || (CONJ && XCONJ)` sign pattern and false for the
other one.
-/

abbrev Arr := Nat → ℚ

/-- Functional store: `y[i] = v`. -/
def setAt (y : Arr) (i : Nat) (v : ℚ) : Arr := fun j => if j = i then v else y j

/-- Functional in-place accumulate: `y[i] += v`. -/
def addAt (y : Arr) (i : Nat) (v : ℚ) : Arr := setAt y i (y i + v)

/-- One iteration of the scalar (non-vectorized) `zgemv_kernel_4x4` loop
body at element offset `i` (`zgemv_n_4.c`, lines 145-166): eight
sequential `+=` statements on `y[i]` and `y[i+1]`. -/
def scalarStep (b : Bool) (a0 a1 a2 a3 x : Arr) (i : Nat) (y : Arr) : Arr :=
  if b then
    let y := addAt y i       (a0 i * x 0 - a0 (i+1) * x 1)
    let y := addAt y (i+1)   (a0 i * x 1 + a0 (i+1) * x 0)
    let y := addAt y i       (a1 i * x 2 - a1 (i+1) * x 3)
    let y := addAt y (i+1)   (a1 i * x 3 + a1 (i+1) * x 2)
    let y := addAt y i       (a2 i * x 4 - a2 (i+1) * x 5)
    let y := addAt y (i+1)   (a2 i * x 5 + a2 (i+1) * x 4)
    let y := addAt y i       (a3 i * x 6 - a3 (i+1) * x 7)
    let y := addAt y (i+1)   (a3 i * x 7 + a3 (i+1) * x 6)
    y
  else
    let y := addAt y i       (a0 i * x 0 + a0 (i+1) * x 1)
    let y := addAt y (i+1)   (a0 i * x 1 - a0 (i+1) * x 0)
    let y := addAt y i       (a1 i * x 2 + a1 (i+1) * x 3)
    let y := addAt y (i+1)   (a1 i * x 3 - a1 (i+1) * x 2)
    let y := addAt y i       (a2 i * x 4 + a2 (i+1) * x 5)
    let y := addAt y (i+1)   (a2 i * x 5 - a2 (i+1) * x 4)
    let y := addAt y i       (a3 i * x 6 + a3 (i+1) * x 7)
    let y := addAt y (i+1)   (a3 i * x 7 - a3 (i+1) * x 6)
    y

/-- The scalar `for (i = 0; i < 2*n; i += 2)` loop, by remaining
iteration count. -/
def scalarLoop (b : Bool) (a0 a1 a2 a3 x : Arr) : Nat → Nat → Arr → Arr
  | 0, _, y => y
  | k+1, i, y =>
    scalarLoop b a0 a1 a2 a3 x k (i+2) (scalarStep b a0 a1 a2 a3 x i y)

/-- The scalar fallback variant of `zgemv_kernel_4x4`
(`zgemv_n_4.c`, lines 136-167). -/
def zgemv_kernel_4x4_scalar (b : Bool) (n : Nat) (a0 a1 a2 a3 x y : Arr) : Arr :=
  scalarLoop b a0 a1 a2 a3 x n 0 y

/-- One lane of the vectorized `zgemv_kernel_4x4` loop body
(`zgemv_n_4.c`, lines 97-117): the chain of vector multiply-accumulate
assignments to `vresult_r`/`vresult_i`, at the lane whose element offset
is `t`, starting from loaded values `r0`/`i0`. -/
def vecLane (b : Bool) (a0 a1 a2 a3 x : Arr) (t : Nat) (r0 i0 : ℚ) : ℚ × ℚ :=
  if b then
    let r1 := a0 t * x 0 - (a0 (t+1) * x 1 - r0)
    let i1 := i0 + a0 t * x 1 + a0 (t+1) * x 0
    let r2 := a1 t * x 2 - (a1 (t+1) * x 3 - r1)
    let i2 := i1 + a1 t * x 3 + a1 (t+1) * x 2
    let r3 := a2 t * x 4 - (a2 (t+1) * x 5 - r2)
    let i3 := i2 + a2 t * x 5 + a2 (t+1) * x 4
    let r4 := a3 t * x 6 - (a3 (t+1) * x 7 - r3)
    let i4 := i3 + a3 t * x 7 + a3 (t+1) * x 6
    (r4, i4)
  else
    let r1 := r0 + a0 t * x 0 + a0 (t+1) * x 1
    let i1 := a0 t * x 1 - (a0 (t+1) * x 0 - i0)
    let r2 := r1 + a1 t * x 2 + a1 (t+1) * x 3
    let i2 := a1 t * x 3 - (a1 (t+1) * x 2 - i1)
    let r3 := r2 + a2 t * x 4 + a2 (t+1) * x 5
    let i3 := a2 t * x 5 - (a2 (t+1) * x 4 - i2)
    let r4 := r3 + a3 t * x 6 + a3 (t+1) * x 7
    let i4 := a3 t * x 7 - (a3 (t+1) * x 6 - i3)
    (r4, i4)

/-- One iteration of the vectorized `zgemv_kernel_4x4` loop at element
offset `i` (`zgemv_n_4.c`, lines 78-131): loads
`vresult_r = {y[i], y[i+2]}` and `vresult_i = {y[i+1], y[i+3]}`, runs
the multiply-accumulate chain on both lanes, and stores the four
results back. -/
def vecStep (b : Bool) (a0 a1 a2 a3 x : Arr) (i : Nat) (y : Arr) : Arr :=
  let l0 := vecLane b a0 a1 a2 a3 x i (y i) (y (i+1))
  let l1 := vecLane b a0 a1 a2 a3 x (i+2) (y (i+2)) (y (i+3))
  setAt (setAt (setAt (setAt y i l0.1) (i+1) l0.2) (i+2) l1.1) (i+3) l1.2

/-- The vectorized `for (i = 0; i < 2*n; i += 4)` loop, by remaining
iteration count. -/
def vecLoop (b : Bool) (a0 a1 a2 a3 x : Arr) : Nat → Nat → Arr → Arr
  | 0, _, y => y
  | k+1, i, y =>
    vecLoop b a0 a1 a2 a3 x k (i+4) (vecStep b a0 a1 a2 a3 x i y)

/-- The vectorized variant of `zgemv_kernel_4x4`
(`zgemv_n_4.c`, lines 55-133); the loop performs `⌈2n/4⌉` iterations. -/
def zgemv_kernel_4x4_vec (b : Bool) (n : Nat) (a0 a1 a2 a3 x y : Arr) : Arr :=
  vecLoop b a0 a1 a2 a3 x ((n+1)/2) 0 y

/-- Complex multiplication on (re, im) pairs. -/
def cmul (p q : ℚ × ℚ) : ℚ × ℚ :=
  (p.1 * q.1 - p.2 * q.2, p.1 * q.2 + p.2 * q.1)

/-- Complex addition on (re, im) pairs. -/
def cadd (p q : ℚ × ℚ) : ℚ × ℚ := (p.1 + q.1, p.2 + q.2)

/-- Complex conjugation on (re, im) pairs. -/
def conjP (p : ℚ × ℚ) : ℚ × ℚ := (p.1, -p.2)

/-- The k-th complex element of a column pointer. -/
def columnElem (a : Arr) (k : Nat) : ℚ × ℚ := (a (2*k), a (2*k+1))

/-- The j-th complex entry of the x vector. -/
def xElem (x : Arr) (j : Nat) : ℚ × ℚ := (x (2*j), x (2*j+1))

/-- Sign selection: the `(!CONJ && !XCONJ) || (CONJ && XCONJ)` pattern
multiplies by the matrix element itself, the other pattern by its
conjugate. -/
def applyConj (b : Bool) (p : ℚ × ℚ) : ℚ × ℚ := if b then p else conjP p

/-- The total complex increment that one `zgemv_kernel_4x4` call adds to
the k-th complex element of y: the sum over the four columns of the
(possibly conjugated) matrix element times the corresponding complex x
entry. -/
def quadInc (b : Bool) (a0 a1 a2 a3 x : Arr) (k : Nat) : ℚ × ℚ :=
  cadd (cadd (cadd (cmul (applyConj b (columnElem a0 k)) (xElem x 0))
                   (cmul (applyConj b (columnElem a1 k)) (xElem x 1)))
             (cmul (applyConj b (columnElem a2 k)) (xElem x 2)))
       (cmul (applyConj b (columnElem a3 k)) (xElem x 3))

/-- The same increment expressed at a raw element offset `i` (the base
of a complex element, `i = 2k`). -/
def stepInc (b : Bool) (a0 a1 a2 a3 x : Arr) (i : Nat) : ℚ × ℚ :=
  if b then
    ((a0 i * x 0 - a0 (i+1) * x 1) + (a1 i * x 2 - a1 (i+1) * x 3)
       + (a2 i * x 4 - a2 (i+1) * x 5) + (a3 i * x 6 - a3 (i+1) * x 7),
     (a0 i * x 1 + a0 (i+1) * x 0) + (a1 i * x 3 + a1 (i+1) * x 2)
       + (a2 i * x 5 + a2 (i+1) * x 4) + (a3 i * x 7 + a3 (i+1) * x 6))
  else
    ((a0 i * x 0 + a0 (i+1) * x 1) + (a1 i * x 2 + a1 (i+1) * x 3)
       + (a2 i * x 4 + a2 (i+1) * x 5) + (a3 i * x 6 + a3 (i+1) * x 7),
     (a0 i * x 1 - a0 (i+1) * x 0) + (a1 i * x 3 - a1 (i+1) * x 2)
       + (a2 i * x 5 - a2 (i+1) * x 4) + (a3 i * x 7 - a3 (i+1) * x 6))

theorem quadInc_eq_stepInc (b : Bool) (a0 a1 a2 a3 x : Arr) (k : Nat) :
    quadInc b a0 a1 a2 a3 x k = stepInc b a0 a1 a2 a3 x (2*k) := by
  cases b <;> (rw [Prod.ext_iff]; constructor) <;>
    simp [quadInc, stepInc, cmul, cadd, conjP, applyConj, columnElem, xElem] <;>
    try ring

theorem scalarStep_apply (b : Bool) (a0 a1 a2 a3 x : Arr) (i : Nat) (y : Arr) :
    scalarStep b a0 a1 a2 a3 x i y = fun j =>
      if j = i then y i + (stepInc b a0 a1 a2 a3 x i).1
      else if j = i + 1 then y (i+1) + (stepInc b a0 a1 a2 a3 x i).2
      else y j := by
  funext j
  have hne : i + 1 ≠ i := by omega
  by_cases h0 : j = i
  · subst h0
    cases b <;> simp [scalarStep, addAt, setAt, stepInc, hne] <;> ring
  · by_cases h1 : j = i + 1
    · subst h1
      cases b <;> simp [scalarStep, addAt, setAt, stepInc, h0, hne] <;> ring
    · cases b <;> simp [scalarStep, addAt, setAt, stepInc, h0, h1]

theorem vecStep_apply (b : Bool) (a0 a1 a2 a3 x : Arr) (i : Nat) (y : Arr) :
    vecStep b a0 a1 a2 a3 x i y = fun j =>
      if j = i then y i + (stepInc b a0 a1 a2 a3 x i).1
      else if j = i + 1 then y (i+1) + (stepInc b a0 a1 a2 a3 x i).2
      else if j = i + 2 then y (i+2) + (stepInc b a0 a1 a2 a3 x (i+2)).1
      else if j = i + 3 then y (i+3) + (stepInc b a0 a1 a2 a3 x (i+2)).2
      else y j := by
  funext j
  have e1 : i + 1 ≠ i := by omega
  have e2 : i + 2 ≠ i := by omega
  have e3 : i + 2 ≠ i + 1 := by omega
  have e4 : i + 3 ≠ i := by omega
  have e5 : i + 3 ≠ i + 1 := by omega
  have e6 : i + 3 ≠ i + 2 := by omega
  by_cases h0 : j = i
  · subst h0
    cases b <;> simp [vecStep, vecLane, setAt, stepInc, e1, e2, e4] <;> ring
  · by_cases h1 : j = i + 1
    · subst h1
      cases b <;> simp [vecStep, vecLane, setAt, stepInc, e1, e3, e5] <;> ring
    · by_cases h2 : j = i + 2
      · subst h2
        cases b <;> simp [vecStep, vecLane, setAt, stepInc, e2, e3, e6] <;> ring
      · by_cases h3 : j = i + 3
        · subst h3
          cases b <;> simp [vecStep, vecLane, setAt, stepInc, e4, e5, e6] <;> ring
        · cases b <;> simp [vecStep, vecLane, setAt, stepInc, h0, h1, h2, h3]

theorem vecStep_decomp (b : Bool) (a0 a1 a2 a3 x : Arr) (i : Nat) (y : Arr) :
    vecStep b a0 a1 a2 a3 x i y =
      scalarStep b a0 a1 a2 a3 x (i+2) (scalarStep b a0 a1 a2 a3 x i y) := by
  rw [vecStep_apply, scalarStep_apply, scalarStep_apply]
  funext j
  have e1 : i + 1 ≠ i := by omega
  have e2 : i + 2 ≠ i := by omega
  have e3 : i + 2 ≠ i + 1 := by omega
  have e4 : i + 3 ≠ i := by omega
  have e5 : i + 3 ≠ i + 1 := by omega
  have e6 : i + 3 ≠ i + 2 := by omega
  have e7 : i + 2 + 1 = i + 3 := by omega
  by_cases h0 : j = i
  · subst h0; simp [e2, e4, e7]
  · by_cases h1 : j = i + 1
    · subst h1; simp [e3, e5, e7]
    · by_cases h2 : j = i + 2
      · subst h2; simp [e2, e3, e7]
      · by_cases h3 : j = i + 3
        · subst h3; simp [e4, e5, e6, e7]
        · simp [h0, h1, h2, h3, e7]

theorem vecLoop_eq_scalarLoop (b : Bool) (a0 a1 a2 a3 x : Arr) :
    ∀ (k i : Nat) (y : Arr),
      vecLoop b a0 a1 a2 a3 x k i y = scalarLoop b a0 a1 a2 a3 x (2*k) i y := by
  intro k
  induction k with
  | zero => intro i y; rfl
  | succ k ih =>
    intro i y
    have h2 : 2 * (k + 1) = (2 * k) + 1 + 1 := by omega
    rw [h2]
    show vecLoop b a0 a1 a2 a3 x (k+1) i y = _
    rw [vecLoop, scalarLoop, scalarLoop, ih, vecStep_decomp]

theorem scalarLoop_frame (b : Bool) (a0 a1 a2 a3 x : Arr) :
    ∀ (k i : Nat) (y : Arr) (j : Nat), j < i →
      scalarLoop b a0 a1 a2 a3 x k i y j = y j := by
  intro k
  induction k with
  | zero => intro i y j hj; rfl
  | succ k ih =>
    intro i y j hj
    rw [scalarLoop, ih (i+2) (scalarStep b a0 a1 a2 a3 x i y) j (by omega),
      scalarStep_apply]
    have h0 : j ≠ i := by omega
    have h1 : j ≠ i + 1 := by omega
    simp [h0, h1]

theorem scalarLoop_char (b : Bool) (a0 a1 a2 a3 x : Arr) :
    ∀ (k i : Nat) (y : Arr) (t : Nat), t < k →
      scalarLoop b a0 a1 a2 a3 x k i y (i + 2*t) =
        y (i + 2*t) + (stepInc b a0 a1 a2 a3 x (i + 2*t)).1 ∧
      scalarLoop b a0 a1 a2 a3 x k i y (i + 2*t + 1) =
        y (i + 2*t + 1) + (stepInc b a0 a1 a2 a3 x (i + 2*t)).2 := by
  intro k
  induction k with
  | zero => intro i y t ht; omega
  | succ k ih =>
    intro i y t ht
    cases t with
    | zero =>
      rw [scalarLoop]
      simp only [Nat.mul_zero, Nat.add_zero]
      constructor
      · rw [scalarLoop_frame b a0 a1 a2 a3 x k (i+2) _ i (by omega),
          scalarStep_apply]
        simp
      · rw [scalarLoop_frame b a0 a1 a2 a3 x k (i+2) _ (i+1) (by omega),
          scalarStep_apply]
        have h1 : i + 1 ≠ i := by omega
        simp [h1]
    | succ t =>
      have hidx : i + 2 * (t + 1) = (i + 2) + 2 * t := by omega
      rw [scalarLoop, hidx]
      obtain ⟨ch1, ch2⟩ := ih (i+2) (scalarStep b a0 a1 a2 a3 x i y) t (by omega)
      rw [ch1, ch2, scalarStep_apply]
      have h0 : i + 2 + 2 * t ≠ i := by omega
      have h1 : i + 2 + 2 * t ≠ i + 1 := by omega
      have h2 : i + 2 + 2 * t + 1 ≠ i := by omega
      have h3 : i + 2 + 2 * t + 1 ≠ i + 1 := by omega
      simp [h0, h1, h2, h3]

/-- A sample array for concrete instantiation. -/
def sampleArr : Arr := fun j => (j : ℚ)

/-- C9: for every even n, every four column pointers, every x of four
complex entries and every y, the vectorized variant and the scalar
fallback variant of `zgemv_kernel_4x4` produce the same final y over
exact real arithmetic, and that final y increments each complex element
y[k] by the sum over j in 0..3 of the complex product of ap[j][k]
(conjugated or not according to the CONJ/XCONJ configuration b) with
x[j]. -/
theorem zgemv_kernel_4x4_equiv (b : Bool) (n : Nat) (hn : n % 2 = 0)
    (a0 a1 a2 a3 x y : Arr) :
    zgemv_kernel_4x4_vec b n a0 a1 a2 a3 x y =
      zgemv_kernel_4x4_scalar b n a0 a1 a2 a3 x y ∧
    ∀ k, k < n →
      zgemv_kernel_4x4_scalar b n a0 a1 a2 a3 x y (2*k) =
        y (2*k) + (quadInc b a0 a1 a2 a3 x k).1 ∧
      zgemv_kernel_4x4_scalar b n a0 a1 a2 a3 x y (2*k+1) =
        y (2*k+1) + (quadInc b a0 a1 a2 a3 x k).2 := by
  constructor
  · unfold zgemv_kernel_4x4_vec zgemv_kernel_4x4_scalar
    have hcount : 2 * ((n+1)/2) = n := by omega
    rw [vecLoop_eq_scalarLoop, hcount]
  · intro k hk
    obtain ⟨c1, c2⟩ := scalarLoop_char b a0 a1 a2 a3 x n 0 y k hk
    unfold zgemv_kernel_4x4_scalar
    rw [quadInc_eq_stepInc]
    exact ⟨by simpa using c1, by simpa using c2⟩

theorem zgemv_kernel_4x4_equiv_witness :
    (2 % 2 = 0) ∧
    zgemv_kernel_4x4_vec true 2 sampleArr sampleArr sampleArr sampleArr
        sampleArr sampleArr =
      zgemv_kernel_4x4_scalar true 2 sampleArr sampleArr sampleArr sampleArr
        sampleArr sampleArr :=
  ⟨by decide,
    (zgemv_kernel_4x4_equiv true 2 (by decide) sampleArr sampleArr sampleArr
      sampleArr sampleArr sampleArr).1⟩

/-!
The remaining pieces of `zgemv_n_4.c` needed by the entry point `CNAME`:
the vectorized `zgemv_kernel_4x2` and `zgemv_kernel_4x1` (the variants
selected by `HAVE_KERNEL_4x2_VEC`/`HAVE_KERNEL_4x1_VEC`), the
vectorized `add_y` (`HAVE_KERNEL_ADDY`), and the `m3` tail sections.
Arrays addressed through C pointers with runtime strides are modelled
as functions from Int offsets (`IArr`).
-/

abbrev IArr := Int → ℚ

/-- Functional accumulate at an Int offset: `y[i] += v`. -/
def addAtI (y : IArr) (i : Int) (v : ℚ) : IArr :=
  fun j => if j = i then y j + v else y j

/-- One lane of the vectorized `zgemv_kernel_4x2` loop body
(`zgemv_n_4.c`, lines 205-217). -/
def vecLane2 (b : Bool) (a0 a1 x : Arr) (t : Nat) (r0 i0 : ℚ) : ℚ × ℚ :=
  if b then
    let r1 := a0 t * x 0 - (a0 (t+1) * x 1 - r0)
    let i1 := i0 + a0 t * x 1 + a0 (t+1) * x 0
    let r2 := a1 t * x 2 - (a1 (t+1) * x 3 - r1)
    let i2 := i1 + a1 t * x 3 + a1 (t+1) * x 2
    (r2, i2)
  else
    let r1 := r0 + a0 t * x 0 + a0 (t+1) * x 1
    let i1 := a0 t * x 1 - (a0 (t+1) * x 0 - i0)
    let r2 := r1 + a1 t * x 2 + a1 (t+1) * x 3
    let i2 := a1 t * x 3 - (a1 (t+1) * x 2 - i1)
    (r2, i2)

/-- One iteration of the vectorized `zgemv_kernel_4x2` loop at element
offset `i` (`zgemv_n_4.c`, lines 191-231). -/
def vecStep2 (b : Bool) (a0 a1 x : Arr) (i : Nat) (y : Arr) : Arr :=
  let l0 := vecLane2 b a0 a1 x i (y i) (y (i+1))
  let l1 := vecLane2 b a0 a1 x (i+2) (y (i+2)) (y (i+3))
  setAt (setAt (setAt (setAt y i l0.1) (i+1) l0.2) (i+2) l1.1) (i+3) l1.2

def vecLoop2 (b : Bool) (a0 a1 x : Arr) : Nat → Nat → Arr → Arr
  | 0, _, y => y
  | k+1, i, y => vecLoop2 b a0 a1 x k (i+4) (vecStep2 b a0 a1 x i y)

/-- The vectorized `zgemv_kernel_4x2` (`zgemv_n_4.c`, lines 175-232). -/
def zgemv_kernel_4x2_vec (b : Bool) (n : Nat) (a0 a1 x y : Arr) : Arr :=
  vecLoop2 b a0 a1 x ((n+1)/2) 0 y

/-- One lane of the vectorized `zgemv_kernel_4x1` loop body
(`zgemv_n_4.c`, lines 291-302). -/
def vecLane1 (b : Bool) (a0 x : Arr) (t : Nat) (r0 i0 : ℚ) : ℚ × ℚ :=
  if b then
    (a0 t * x 0 - (a0 (t+1) * x 1 - r0),
     i0 + a0 t * x 1 + a0 (t+1) * x 0)
  else
    (r0 + a0 t * x 0 + a0 (t+1) * x 1,
     a0 t * x 1 - (a0 (t+1) * x 0 - i0))

/-- One iteration of the vectorized `zgemv_kernel_4x1` loop at element
offset `i` (`zgemv_n_4.c`, lines 279-314). -/
def vecStep1 (b : Bool) (a0 x : Arr) (i : Nat) (y : Arr) : Arr :=
  let l0 := vecLane1 b a0 x i (y i) (y (i+1))
  let l1 := vecLane1 b a0 x (i+2) (y (i+2)) (y (i+3))
  setAt (setAt (setAt (setAt y i l0.1) (i+1) l0.2) (i+2) l1.1) (i+3) l1.2

def vecLoop1 (b : Bool) (a0 x : Arr) : Nat → Nat → Arr → Arr
  | 0, _, y => y
  | k+1, i, y => vecLoop1 b a0 x k (i+4) (vecStep1 b a0 x i y)

/-- The vectorized `zgemv_kernel_4x1` (`zgemv_n_4.c`, lines 265-315). -/
def zgemv_kernel_4x1_vec (b : Bool) (n : Nat) (a0 x y : Arr) : Arr :=
  vecLoop1 b a0 x ((n+1)/2) 0 y

/-- One lane of the vectorized `add_y` loop body
(`zgemv_n_4.c`, lines 369-379): scales the buffered complex value by
alpha, with the sign pattern selected by XCONJ. -/
def addyLane (xconj : Bool) (sr si ar ai : ℚ) : ℚ × ℚ :=
  if xconj then (sr * ar + si * ai, sr * ai - si * ar)
  else (sr * ar - si * ai, sr * ai + si * ar)

/-- The `inc_dest != 2` loop of the vectorized `add_y`
(`zgemv_n_4.c`, lines 357-391): two complex elements per iteration,
stored with destination stride `inc`. -/
def addyLoopA (xconj : Bool) (alpha_r alpha_i : ℚ) (src : Arr) (inc : Int) :
    Nat → Nat → Int → IArr → IArr
  | 0, _, _, dest => dest
  | k+1, s, dOff, dest =>
    let l0 := addyLane xconj (src s) (src (s+1)) alpha_r alpha_i
    let l1 := addyLane xconj (src (s+2)) (src (s+3)) alpha_r alpha_i
    let dest := addAtI dest dOff l0.1
    let dest := addAtI dest (dOff + 1) l0.2
    let dest := addAtI dest (dOff + inc) l1.1
    let dest := addAtI dest (dOff + inc + 1) l1.2
    addyLoopA xconj alpha_r alpha_i src inc k (s+4) (dOff + 2*inc) dest

/-- The `inc_dest == 2` loop of the vectorized `add_y`
(`zgemv_n_4.c`, lines 394-429): the same computation with a hard-coded
destination step of 4 raw elements. -/
def addyLoopB (xconj : Bool) (alpha_r alpha_i : ℚ) (src : Arr) :
    Nat → Nat → Int → IArr → IArr
  | 0, _, _, dest => dest
  | k+1, s, dOff, dest =>
    let l0 := addyLane xconj (src s) (src (s+1)) alpha_r alpha_i
    let l1 := addyLane xconj (src (s+2)) (src (s+3)) alpha_r alpha_i
    let dest := addAtI dest dOff l0.1
    let dest := addAtI dest (dOff + 1) l0.2
    let dest := addAtI dest (dOff + 2) l1.1
    let dest := addAtI dest (dOff + 3) l1.2
    addyLoopB xconj alpha_r alpha_i src k (s+4) (dOff + 4) dest

/-- The vectorized `add_y` (`zgemv_n_4.c`, lines 343-433): adds
`alpha * src` into `dest` at stride `inc_dest`; the loop counts by two
complex elements per iteration. -/
def add_y (xconj : Bool) (n : Nat) (src : Arr) (dest : IArr) (destOff : Int)
    (inc_dest : Int) (alpha_r alpha_i : ℚ) : IArr :=
  if inc_dest ≠ 2 then
    addyLoopA xconj alpha_r alpha_i src inc_dest ((n+1)/2) 0 destOff dest
  else
    addyLoopB xconj alpha_r alpha_i src ((n+1)/2) 0 destOff dest

/-- The `n1` kernel loop of a block in the `inc_x == 2` case
(`zgemv_n_4.c`, lines 574-583): runs `zgemv_kernel_4x4` on four column
views and advances the column and x pointers. -/
def blockLoop44 (b : Bool) (NB : Nat) (lda2 lda4 : Int) (a x : IArr) :
    Nat → Int → Int → Arr → Arr
  | 0, _, _, yb => yb
  | k+1, aOff, xOff, yb =>
    blockLoop44 b NB lda2 lda4 a x k (aOff + lda4) (xOff + 8)
      (zgemv_kernel_4x4_vec b NB
        (fun j => a (aOff + j)) (fun j => a (aOff + lda2 + j))
        (fun j => a (aOff + 2*lda2 + j)) (fun j => a (aOff + 3*lda2 + j))
        (fun j => x (xOff + j)) yb)

/-- The stack `xbuffer` of four complex x entries gathered at stride
`incx2` (`zgemv_n_4.c`, lines 607-618); slots past 7 are the
uninitialized remainder of the 8-element stack buffer. -/
def gather4 (x : IArr) (xOff incx2 : Int) : Arr := fun j =>
  if j = 0 then x xOff else if j = 1 then x (xOff + 1)
  else if j = 2 then x (xOff + incx2) else if j = 3 then x (xOff + incx2 + 1)
  else if j = 4 then x (xOff + 2*incx2) else if j = 5 then x (xOff + 2*incx2 + 1)
  else if j = 6 then x (xOff + 3*incx2) else if j = 7 then x (xOff + 3*incx2 + 1)
  else 0

/-- The stack `xbuffer` holding a single complex x entry
(`zgemv_n_4.c`, lines 630-632). -/
def gather1 (x : IArr) (xOff : Int) : Arr := fun j =>
  if j = 0 then x xOff else if j = 1 then x (xOff + 1) else 0

/-- The `n1` kernel loop of a block in the strided-x case
(`zgemv_n_4.c`, lines 604-626). -/
def blockLoop44g (b : Bool) (NB : Nat) (lda2 lda4 incx2 : Int) (a x : IArr) :
    Nat → Int → Int → Arr → Arr
  | 0, _, _, yb => yb
  | k+1, aOff, xOff, yb =>
    blockLoop44g b NB lda2 lda4 incx2 a x k (aOff + lda4) (xOff + 4*incx2)
      (zgemv_kernel_4x4_vec b NB
        (fun j => a (aOff + j)) (fun j => a (aOff + lda2 + j))
        (fun j => a (aOff + 2*lda2 + j)) (fun j => a (aOff + 3*lda2 + j))
        (gather4 x xOff incx2) yb)

/-- The `n2` single-column loop of a block in the strided-x case
(`zgemv_n_4.c`, lines 628-636). -/
def blockLoop41g (b : Bool) (NB : Nat) (lda2 incx2 : Int) (a x : IArr) :
    Nat → Int → Int → Arr → Arr
  | 0, _, _, yb => yb
  | k+1, aOff, xOff, yb =>
    blockLoop41g b NB lda2 incx2 a x k (aOff + lda2) (xOff + incx2)
      (zgemv_kernel_4x1_vec b NB (fun j => a (aOff + j)) (gather1 x xOff) yb)

/-- One iteration of the blocked `while` loop of `CNAME`
(`zgemv_n_4.c`, lines 562-642): zeroes the `ybuffer`, runs the column
kernels for the current block of `NB` rows, and adds the buffered
result into y. -/
def processBlock (conjeq xconj : Bool) (n1 n2 : Nat)
    (lda2 lda4 incx2 incy2 : Int) (alpha_r alpha_i : ℚ) (a x : IArr)
    (NB : Nat) (aOff yOff : Int) (y : IArr) : IArr :=
  let ybuffer : Arr := fun _ => 0
  let yb :=
    if incx2 = 2 then
      let yb := blockLoop44 conjeq NB lda2 lda4 a x n1 aOff 0 ybuffer
      let aOff1 := aOff + (n1 : Int) * lda4
      let xOff1 : Int := (n1 : Int) * 8
      let yb :=
        if n2 &&& 2 ≠ 0 then
          zgemv_kernel_4x2_vec conjeq NB
            (fun j => a (aOff1 + j)) (fun j => a (aOff1 + lda2 + j))
            (fun j => x (xOff1 + j)) yb
        else yb
      let aOff2 := if n2 &&& 2 ≠ 0 then aOff1 + 2*lda2 else aOff1
      let xOff2 := if n2 &&& 2 ≠ 0 then xOff1 + 4 else xOff1
      if n2 &&& 1 ≠ 0 then
        zgemv_kernel_4x1_vec conjeq NB
          (fun j => a (aOff2 + j)) (fun j => x (xOff2 + j)) yb
      else yb
    else
      let yb := blockLoop44g conjeq NB lda2 lda4 incx2 a x n1 aOff 0 ybuffer
      blockLoop41g conjeq NB lda2 incx2 a x n2
        (aOff + (n1 : Int) * lda4) ((n1 : Int) * (4 * incx2)) yb
  add_y xconj NB yb y yOff incy2 alpha_r alpha_i

/-- The blocked `while (NB == NBMAX)` loop of `CNAME`
(`zgemv_n_4.c`, lines 550-643), by fuel (the chosen fuel always exceeds
the true iteration count, which falls by one block of at most `NBMAX`
rows per iteration); returns the final y together with the advanced
offsets of `a` and `y_ptr` as used by the `m3` tail sections. -/
def cnameWhile (conjeq xconj : Bool) (n1 n2 m2 : Nat)
    (lda2 lda4 incx2 incy2 : Int) (alpha_r alpha_i : ℚ) (a x : IArr) :
    Nat → Int → Int → Int → IArr → IArr × Int × Int
  | 0, _, aOff, yOff, y => (y, aOff, yOff)
  | fuel+1, m1, aOff, yOff, y =>
    let m1' := m1 - 1024
    if m1' < 0 then
      if m2 = 0 then (y, aOff, yOff)
      else
        (processBlock conjeq xconj n1 n2 lda2 lda4 incx2 incy2 alpha_r alpha_i
            a x m2 aOff yOff y,
         aOff + 2 * (m2 : Int), yOff + (m2 : Int) * incy2)
    else
      cnameWhile conjeq xconj n1 n2 m2 lda2 lda4 incx2 incy2 alpha_r alpha_i a x
        fuel m1' (aOff + 2 * 1024) (yOff + 1024 * incy2)
        (processBlock conjeq xconj n1 n2 lda2 lda4 incx2 incy2 alpha_r alpha_i
          a x 1024 aOff yOff y)

/-- One accumulation step of the `m3` tail dot products
(`zgemv_n_4.c`, e.g. lines 699-705): adds one complex product into the
running sums, with the sign pattern selected by CONJ/XCONJ. -/
def dotStep (conjeq : Bool) (ar ai xr xi tr ti : ℚ) : ℚ × ℚ :=
  if conjeq then (tr + (ar * xr - ai * xi), ti + (ar * xi + ai * xr))
  else (tr + (ar * xr + ai * xi), ti + (ar * xi - ai * xr))

/-- The generic one-row tail loop (`zgemv_n_4.c`, lines 697-709). -/
def dot1Loop (conjeq : Bool) (a x : IArr) (astep xstep : Int) :
    Nat → Int → Int → ℚ × ℚ → ℚ × ℚ
  | 0, _, _, t => t
  | k+1, aOff, xOff, t =>
    dot1Loop conjeq a x astep xstep k (aOff + astep) (xOff + xstep)
      (dotStep conjeq (a aOff) (a (aOff+1)) (x xOff) (x (xOff+1)) t.1 t.2)

/-- The unrolled pair loop of the one-row tail fast path
(`zgemv_n_4.c`, lines 658-674). -/
def dot1PairLoop (conjeq : Bool) (a x : IArr) :
    Nat → Int → Int → ℚ × ℚ → ℚ × ℚ
  | 0, _, _, t => t
  | k+1, aOff, xOff, t =>
    let t := dotStep conjeq (a aOff) (a (aOff+1)) (x xOff) (x (xOff+1)) t.1 t.2
    let t := dotStep conjeq (a (aOff+2)) (a (aOff+3)) (x (xOff+2)) (x (xOff+3)) t.1 t.2
    dot1PairLoop conjeq a x k (aOff + 4) (xOff + 4) t

/-- The generic two-row tail loop (`zgemv_n_4.c`, lines 789-805). -/
def dot2Loop (conjeq : Bool) (a x : IArr) (astep xstep : Int) :
    Nat → Int → Int → (ℚ × ℚ) × (ℚ × ℚ) → (ℚ × ℚ) × (ℚ × ℚ)
  | 0, _, _, t => t
  | k+1, aOff, xOff, t =>
    dot2Loop conjeq a x astep xstep k (aOff + astep) (xOff + xstep)
      (dotStep conjeq (a aOff) (a (aOff+1)) (x xOff) (x (xOff+1)) t.1.1 t.1.2,
       dotStep conjeq (a (aOff+2)) (a (aOff+3)) (x xOff) (x (xOff+1)) t.2.1 t.2.2)

/-- The unrolled pair loop of the two-row tail fast path
(`zgemv_n_4.c`, lines 734-763). -/
def dot2PairLoop (conjeq : Bool) (a x : IArr) :
    Nat → Int → Int → (ℚ × ℚ) × (ℚ × ℚ) → (ℚ × ℚ) × (ℚ × ℚ)
  | 0, _, _, t => t
  | k+1, aOff, xOff, t =>
    let t := (dotStep conjeq (a aOff) (a (aOff+1)) (x xOff) (x (xOff+1)) t.1.1 t.1.2,
              dotStep conjeq (a (aOff+2)) (a (aOff+3)) (x xOff) (x (xOff+1)) t.2.1 t.2.2)
    let t := (dotStep conjeq (a (aOff+4)) (a (aOff+5)) (x (xOff+2)) (x (xOff+3)) t.1.1 t.1.2,
              dotStep conjeq (a (aOff+6)) (a (aOff+7)) (x (xOff+2)) (x (xOff+3)) t.2.1 t.2.2)
    dot2PairLoop conjeq a x k (aOff + 8) (xOff + 4) t

/-- The three-row tail loop (`zgemv_n_4.c`, lines 840-888), used by both
the `lda == 6 && inc_x == 2` fast path (steps 6 and 2) and the generic
path (steps `lda` and `inc_x`). -/
def dot3Loop (conjeq : Bool) (a x : IArr) (astep xstep : Int) :
    Nat → Int → Int → (ℚ × ℚ) × (ℚ × ℚ) × (ℚ × ℚ) →
      (ℚ × ℚ) × (ℚ × ℚ) × (ℚ × ℚ)
  | 0, _, _, t => t
  | k+1, aOff, xOff, t =>
    dot3Loop conjeq a x astep xstep k (aOff + astep) (xOff + xstep)
      (dotStep conjeq (a aOff) (a (aOff+1)) (x xOff) (x (xOff+1)) t.1.1 t.1.2,
       dotStep conjeq (a (aOff+2)) (a (aOff+3)) (x xOff) (x (xOff+1)) t.2.1.1 t.2.1.2,
       dotStep conjeq (a (aOff+4)) (a (aOff+5)) (x xOff) (x (xOff+1)) t.2.2.1 t.2.2.2)

/-- The final tail store of one complex y element
(`zgemv_n_4.c`, e.g. lines 712-718): `y[0] += alpha * temp` with the
XCONJ sign pattern (for XCONJ the imaginary part is written with
`-=`). -/
def storeTail (xconj : Bool) (y : IArr) (off : Int) (alpha_r alpha_i tr ti : ℚ) :
    IArr :=
  if xconj then
    addAtI (addAtI y off (alpha_r * tr + alpha_i * ti))
      (off + 1) (-(alpha_r * ti - alpha_i * tr))
  else
    addAtI (addAtI y off (alpha_r * tr - alpha_i * ti))
      (off + 1) (alpha_r * ti + alpha_i * tr)

/-- The complex GEMV entry point `CNAME`
(`zgemv_n_4.c`, lines 512-917).  `conj`/`xconj` select the CONJ/XCONJ
configuration; the return value is the pair of the C return code and
the final y array.  Strides `inc_x`, `inc_y`, `lda` are doubled at
entry as in the source; `m1`, `m2`, `m3` and the blocked loop follow
lines 541-546 and 550-643, and the `m3` tail sections follow
lines 645-916. -/
def CNAME (conj xconj : Bool) (m n : Int) (alpha_r alpha_i : ℚ)
    (a : IArr) (lda : Int) (x : IArr) (inc_x : Int) (y : IArr) (inc_y : Int) :
    Int × IArr :=
  if m < 1 then (0, y)
  else if n < 1 then (0, y)
  else
    let conjeq := conj == xconj
    let incx2 := inc_x * 2
    let incy2 := inc_y * 2
    let lda2 := lda * 2
    let lda4 := 4 * lda2
    let n1 := (n / 4).toNat
    let n2 := (n % 4).toNat
    let m3 := m % 4
    let m1 := m - m % 4
    let m2 := ((m % 1024) - (m % 4)).toNat
    let r := cnameWhile conjeq xconj n1 n2 m2 lda2 lda4 incx2 incy2
      alpha_r alpha_i a x (m.toNat + 1) m1 0 0 y
    let y := r.1
    let aOff := r.2.1
    let yOff := r.2.2
    if m3 = 0 then (0, y)
    else if m3 = 1 then
      let t :=
        if lda2 = 2 ∧ incx2 = 2 then
          let pairs := n.toNat / 2
          let tp := dot1PairLoop conjeq a x pairs aOff 0 (0, 0)
          dot1Loop conjeq a x 2 2 (n.toNat % 2)
            (aOff + 4 * (pairs : Int)) (4 * (pairs : Int)) tp
        else
          dot1Loop conjeq a x lda2 incx2 n.toNat aOff 0 (0, 0)
      (0, storeTail xconj y yOff alpha_r alpha_i t.1 t.2)
    else if m3 = 2 then
      let t :=
        if lda2 = 4 ∧ incx2 = 2 then
          let pairs := n.toNat / 2
          let tp := dot2PairLoop conjeq a x pairs aOff 0 ((0, 0), (0, 0))
          dot2Loop conjeq a x 4 2 (n.toNat % 2)
            (aOff + 8 * (pairs : Int)) (4 * (pairs : Int)) tp
        else
          dot2Loop conjeq a x lda2 incx2 n.toNat aOff 0 ((0, 0), (0, 0))
      let y := storeTail xconj y yOff alpha_r alpha_i t.1.1 t.1.2
      (0, storeTail xconj y (yOff + incy2) alpha_r alpha_i t.2.1 t.2.2)
    else if m3 = 3 then
      let t :=
        if lda2 = 6 ∧ incx2 = 2 then
          dot3Loop conjeq a x 6 2 n.toNat aOff 0 ((0, 0), (0, 0), (0, 0))
        else
          dot3Loop conjeq a x lda2 incx2 n.toNat aOff 0 ((0, 0), (0, 0), (0, 0))
      let y := storeTail xconj y yOff alpha_r alpha_i t.1.1 t.1.2
      let y := storeTail xconj y (yOff + incy2) alpha_r alpha_i t.2.1.1 t.2.1.2
      (0, storeTail xconj y (yOff + 2*incy2) alpha_r alpha_i t.2.2.1 t.2.2.2)
    else (0, y)

/-- A sample Int-indexed array for concrete instantiation. -/
def sampleIArr : IArr := fun j => (j : ℚ)

/-- C8: the complex GEMV entry point `CNAME` returns 0 on every
execution path, and whenever `m < 1` or `n < 1` it returns before the
main computation, leaving the y vector unchanged (the early-return
frame property observable in the embedding; the source performs no
array access before these guards). -/
theorem cname_ret_zero_early_exit (conj xconj : Bool) (m n : Int)
    (alpha_r alpha_i : ℚ) (a : IArr) (lda : Int) (x : IArr) (inc_x : Int)
    (y : IArr) (inc_y : Int) :
    (CNAME conj xconj m n alpha_r alpha_i a lda x inc_x y inc_y).1 = 0 ∧
    ((m < 1 ∨ n < 1) →
      (CNAME conj xconj m n alpha_r alpha_i a lda x inc_x y inc_y).2 = y) := by
  constructor
  · unfold CNAME
    split
    · rfl
    · split
      · rfl
      · dsimp only
        split
        · rfl
        · split
          · rfl
          · split
            · rfl
            · split
              · rfl
              · rfl
  · intro h
    unfold CNAME
    rcases h with h | h
    · rw [if_pos h]
    · by_cases hm : m < 1
      · rw [if_pos hm]
      · rw [if_neg hm, if_pos h]

theorem cname_ret_zero_early_exit_witness :
    ((0:Int) < 1 ∨ (5:Int) < 1) ∧
    (CNAME false false 0 5 1 1 sampleIArr 3 sampleIArr 1 sampleIArr 1).1 = 0 ∧
    (CNAME false false 0 5 1 1 sampleIArr 3 sampleIArr 1 sampleIArr 1).2 =
      sampleIArr :=
  ⟨Or.inl (by decide),
    (cname_ret_zero_early_exit false false 0 5 1 1 sampleIArr 3 sampleIArr 1
      sampleIArr 1).1,
    (cname_ret_zero_early_exit false false 0 5 1 1 sampleIArr 3 sampleIArr 1
      sampleIArr 1).2 (Or.inl (by decide))⟩

end Zgemv

namespace ThincC

/-!
Shallow embedding of the inline `Example.init` of `thinc/api.pxd`
(lines 29-50).  `Pool.alloc` (cymem) returns zero-initialized memory,
so a freshly allocated array of n elements is `List.replicate n 0`.
`weight_t` (double) values are modelled as rationals.  `FeatureC` is
declared in `structs.pxd`, which is not among the sources; only the
count of its zero-filled slots matters here, so the features allocation
is modelled as that many unit slots.
-/

/-- The integer value of a `size`-byte machine integer every byte of
which has been set to `c` by `memset` (the same value under either
endianness, since all bytes are equal). -/
def byteFillValue (c size : Nat) : Nat :=
  (List.range size).foldl (fun acc _ => acc * 256 + c) 0

/-- The effect of `memset(ptr, c, sizeof(int) * len)` on an `int` array
of 4-byte elements, viewed element-wise: every element becomes the
`c`-filled 4-byte value. -/
def memsetIntArray (arr : List Int) (c : Nat) : List Int :=
  arr.map (fun _ => (byteFillValue c 4 : Int))

/-- The `ExampleC` struct as filled in by `Example.init`: the five
allocated arrays, the three state pointers (`none` models NULL), the
three stored counts, and the scalar `guess`/`best`/`cost` fields. -/
structure ExampleC where
  is_valid : List Int
  costs : List ℚ
  atoms : List Nat
  features : List Unit
  scores : List ℚ
  gradient : Option (List ℚ)
  fwd_state : Option (List ℚ)
  bwd_state : Option (List ℚ)
  nr_class : Nat
  nr_atom : Nat
  nr_feat : Nat
  guess : Int
  best : Int
  cost : ℚ

/-- The static inline `Example.init` of `api.pxd` (lines 29-50):
allocates `is_valid` (then `memset`s its bytes to 1), `costs`, `atoms`,
`features` and `scores` from the pool, sets the gradient and
forward/backward state pointers to NULL, stores the three counts, and
zeroes `guess`, `best` and `cost`; `nr_embed` is accepted but not
stored.  The `int` argument counts are modelled as naturals
(non-negative counts). -/
def Example.init (nr_class nr_atom nr_feat nr_embed : Nat) : ExampleC :=
  let is_valid := memsetIntArray (List.replicate nr_class (0 : Int)) 1
  { is_valid := is_valid
    costs := List.replicate nr_class 0
    atoms := List.replicate nr_atom 0
    features := List.replicate nr_feat ()
    scores := List.replicate nr_class 0
    gradient := none
    fwd_state := none
    bwd_state := none
    nr_class := nr_class
    nr_atom := nr_atom
    nr_feat := nr_feat
    guess := 0
    best := 0
    cost := 0 }

/-- C10: `Example.init(mem, nr_class, nr_atom, nr_feat, nr_embed)`
returns an `ExampleC` whose gradient, fwd_state and bwd_state pointers
are NULL, whose guess, best and cost are 0, whose nr_class, nr_atom and
nr_feat equal the passed arguments, and whose `is_valid` array has each
of its `nr_class` int entries equal to the 4-byte value whose every
byte is 1, namely 16843009 — nonzero, but not the integer 1. -/
theorem example_init_spec (nr_class nr_atom nr_feat nr_embed : Nat) :
    (Example.init nr_class nr_atom nr_feat nr_embed).gradient = none ∧
    (Example.init nr_class nr_atom nr_feat nr_embed).fwd_state = none ∧
    (Example.init nr_class nr_atom nr_feat nr_embed).bwd_state = none ∧
    (Example.init nr_class nr_atom nr_feat nr_embed).guess = 0 ∧
    (Example.init nr_class nr_atom nr_feat nr_embed).best = 0 ∧
    (Example.init nr_class nr_atom nr_feat nr_embed).cost = 0 ∧
    (Example.init nr_class nr_atom nr_feat nr_embed).nr_class = nr_class ∧
    (Example.init nr_class nr_atom nr_feat nr_embed).nr_atom = nr_atom ∧
    (Example.init nr_class nr_atom nr_feat nr_embed).nr_feat = nr_feat ∧
    (Example.init nr_class nr_atom nr_feat nr_embed).is_valid.length = nr_class ∧
    (∀ v ∈ (Example.init nr_class nr_atom nr_feat nr_embed).is_valid,
      v = 16843009) ∧
    byteFillValue 1 4 = 16843009 ∧
    (16843009 : Int) ≠ 1 ∧ (16843009 : Int) ≠ 0 := by
  refine ⟨rfl, rfl, rfl, rfl, rfl, rfl, rfl, rfl, rfl, ?_, ?_, by decide,
    by decide, by decide⟩
  · simp [Example.init, memsetIntArray]
  · intro v hv
    simp [Example.init, memsetIntArray] at hv
    rcases hv with ⟨_, hv⟩
    rw [hv]
    decide

theorem example_init_spec_witness :
    (Example.init 3 2 4 5).is_valid = [16843009, 16843009, 16843009] ∧
    (Example.init 3 2 4 5).gradient = none :=
  ⟨by decide, (example_init_spec 3 2 4 5).1⟩

end ThincC

